import Mathlib

/-!
A verification development for the PodTrack playback-tracking accumulator
(`SpotifyService` in the repository source). The TypeScript service is
shallowly embedded: `localStorage` becomes an explicit association list of
episode records keyed by id, timestamps become natural numbers
(milliseconds), the interval callback becomes the pure step function
`tick`, and the tri-state result of `getCurrentlyPlaying` becomes
`FetchResult`. JS `x || y` on numbers (where both `0` and `undefined` are
falsy) is modelled by `jsOr` with `0` standing for a missing number, and
on strings by `jsOrS` with `""` standing for a missing string.
-/

namespace PodTrack

/-- JS `a || b` on numbers: `0` (which also stands for `undefined`) is falsy. -/
def jsOr (a b : Nat) : Nat := if a = 0 then b else a

/-- JS `a || b` on strings: `""` (which also stands for `undefined`) is falsy. -/
def jsOrS (a b : String) : String := if a = "" then b else a

/-- One playback session of an episode (`{started_at, ended_at?, progress_ms}`).
`ended_at = none` is an open session. -/
structure Session where
  started_at : Nat
  ended_at : Option Nat
  progress_ms : Nat
deriving DecidableEq

/-- The `show` object of an episode (named `showInfo` here since `show` is a
Lean keyword): id, name, publisher, artwork urls. -/
structure ShowInfo where
  id : String
  name : String
  publisher : String
  images : List String
deriving DecidableEq

/-- A `StoredEpisode` record as persisted under the `podtrack_episodes` key.
The TypeScript field `type` is named `itemType` here. -/
structure StoredEpisode where
  id : String
  name : String
  description : String
  duration_ms : Nat
  release_date : String
  images : List String
  itemType : String
  showInfo : ShowInfo
  played_at : Nat
  progress_ms : Nat
  total_played_ms : Nat
  last_played_at : Nat
  first_played_at : Nat
  sessions : List Session
deriving DecidableEq

/-- The playback item (`playback.item`) read by `storeEpisode`: missing string
fields are `""`, a missing numeric `duration_ms` is `0`, a missing `show`
object is `none`. -/
structure PlaybackItem where
  id : String
  name : String
  description : String
  duration_ms : Nat
  release_date : String
  images : List String
  itemType : String
  showOpt : Option ShowInfo
deriving DecidableEq

/-- The ledger: the JS object `Record<string, StoredEpisode>` as an
association list in key-insertion order (ids are unique in any state
reachable from an empty store). -/
abbrev Store := List StoredEpisode

/-- Lookup `episodes[id]`. -/
def findEp : Store → String → Option StoredEpisode
  | [], _ => none
  | e :: s, i => if e.id = i then some e else findEp s i

/-- Assignment `episodes[e.id] = e`: replace the record with that key, or
append a new one (JS objects keep insertion order). -/
def setEp : Store → StoredEpisode → Store
  | [], e => [e]
  | x :: s, e => if x.id = e.id then e :: s else x :: setEp s e

/-- `episodeData.show?.field || fallback` for each field of the show. -/
def showOfItem (item : PlaybackItem) : ShowInfo :=
  match item.showOpt with
  | some sh => sh
  | none => { id := "", name := "", publisher := "", images := [] }

/-- The fresh record built by `storeEpisode`'s else-branch (new episode). -/
def mkNewEpisode (item : PlaybackItem) (progress_ms timePlayedMs now : Nat) :
    StoredEpisode :=
  { id := item.id
    name := item.name
    description := item.description
    duration_ms := item.duration_ms
    release_date := item.release_date
    images := item.images
    itemType := jsOrS item.itemType "episode"
    showInfo := showOfItem item
    played_at := now
    progress_ms := min progress_ms (jsOr item.duration_ms 0)
    total_played_ms := min timePlayedMs (jsOr item.duration_ms 0)
    last_played_at := now
    first_played_at := now
    sessions := [{ started_at := now, ended_at := none, progress_ms := progress_ms }] }

/-- `storeEpisode(episodeData, progress_ms, timePlayedMs)`: upsert of the
active episode.  On an existing record it bumps `last_played_at`, clamps
`progress_ms`, extends the open session (or starts a new one) and adds
`timePlayedMs` to `total_played_ms`, clamped to
`episodeData.duration_ms || existing.duration_ms`. -/
def storeEpisode (s : Store) (item : PlaybackItem)
    (progress_ms timePlayedMs now : Nat) : Store :=
  match findEp s item.id with
  | some existing =>
    let maxProgress := jsOr item.duration_ms existing.duration_ms
    let updated :=
      match existing.sessions.getLast? with
      | some currentSession =>
        if currentSession.ended_at = none then
          { existing with
            last_played_at := now
            progress_ms := min progress_ms maxProgress
            sessions := existing.sessions.dropLast ++
              [{ currentSession with progress_ms := min progress_ms maxProgress }]
            total_played_ms := min (existing.total_played_ms + timePlayedMs) maxProgress }
        else
          { existing with
            last_played_at := now
            progress_ms := min progress_ms maxProgress
            sessions := existing.sessions ++
              [{ started_at := now, ended_at := none, progress_ms := progress_ms }]
            total_played_ms := min (existing.total_played_ms + timePlayedMs) maxProgress }
      | none =>
        { existing with
          last_played_at := now
          progress_ms := min progress_ms maxProgress
          sessions := existing.sessions ++
            [{ started_at := now, ended_at := none, progress_ms := progress_ms }]
          total_played_ms := min (existing.total_played_ms + timePlayedMs) maxProgress }
    setEp s updated
  | none => setEp s (mkNewEpisode item progress_ms timePlayedMs now)

/-- `updateSessionEnd(episodeId, finalTimeMs)`: if the episode exists and its
last session is open, set its `ended_at` and add `finalTimeMs` to
`total_played_ms` clamped to `episode.duration_ms || 0`; otherwise no-op. -/
def updateSessionEnd (s : Store) (episodeId : String) (finalTimeMs now : Nat) :
    Store :=
  match findEp s episodeId with
  | none => s
  | some episode =>
    match episode.sessions.getLast? with
    | none => s
    | some lastSession =>
      if lastSession.ended_at = none then
        let maxProgress := jsOr episode.duration_ms 0
        setEp s
          { episode with
            sessions := episode.sessions.dropLast ++
              [{ lastSession with ended_at := some now }]
            total_played_ms := min (episode.total_played_ms + finalTimeMs) maxProgress }
      else s

/-- `getStoredEpisodes()`: all records sorted by `last_played_at` descending. -/
def getStoredEpisodes (s : Store) : List StoredEpisode :=
  s.mergeSort (fun a b => Nat.ble b.last_played_at a.last_played_at)

/-- The reporting shape (`SpotifyEpisode`) produced by
`getRecentlyPlayedEpisodes`. -/
structure EpisodeView where
  id : String
  name : String
  description : String
  duration_ms : Nat
  release_date : String
  images : List String
  itemType : String
  showInfo : ShowInfo
  played_at : Nat
  progress_ms : Nat
  total_played_ms : Nat
deriving DecidableEq

/-- The per-record mapping applied by `getRecentlyPlayedEpisodes`. -/
def toView (e : StoredEpisode) : EpisodeView :=
  { id := e.id
    name := e.name
    description := e.description
    duration_ms := e.duration_ms
    release_date := e.release_date
    images := e.images
    itemType := e.itemType
    showInfo := e.showInfo
    played_at := e.last_played_at
    progress_ms := e.progress_ms
    total_played_ms := e.total_played_ms }

/-- `getRecentlyPlayedEpisodes(limit)` (the source defaults `limit` to 50):
sorted most-recent-first, truncated to `limit`, mapped to the reporting
shape. -/
def getRecentlyPlayedEpisodes (s : Store) (limit : Nat) :
    List EpisodeView :=
  ((getStoredEpisodes s).take limit).map toView

/-- The body of `playback` returned by the player endpoint when a 200
response carries JSON (`playback.progress_ms || 0` is pre-applied). -/
structure PlaybackState where
  item : Option PlaybackItem
  is_playing : Bool
  progress_ms : Nat
deriving DecidableEq

/-- Outcome of one poll of the player endpoint, before `getCurrentlyPlaying`
collapses it: a thrown/failed request, a 204 no-content, or a payload. -/
inductive FetchResult where
  | unavailable
  | noContent
  | ok (p : PlaybackState)
deriving DecidableEq

/-- `getCurrentlyPlaying()`: returns `null` both on 204 (nothing playing) and
on any error or non-OK response (`Unavailable`). -/
def getCurrentlyPlaying : FetchResult → Option PlaybackState
  | FetchResult.unavailable => none
  | FetchResult.noContent => none
  | FetchResult.ok p => some p

/-- The service's mutable fields relevant to tracking: whether the polling
interval is installed, `lastPollTime`, `lastEpisodeId`, and the persisted
store. -/
structure TrackerState where
  polling : Bool
  lastPollTime : Nat
  lastEpisodeId : Option String
  store : Store
deriving DecidableEq

/-- The shared tail of the callback's "nothing playing / not an episode"
branches: close the active session, if any, and clear `lastEpisodeId`. -/
def endActive (st : TrackerState) (elapsed now : Nat) : TrackerState :=
  match st.lastEpisodeId with
  | some lid =>
    { st with store := updateSessionEnd st.store lid elapsed now
              lastEpisodeId := none }
  | none => st

/-- The playing branch's episode-change check: when the active episode
differs from the item now playing, close the active session first. -/
def closeIfSwitch (st : TrackerState) (newId : String) (elapsed now : Nat) :
    Store :=
  match st.lastEpisodeId with
  | some lid =>
    if lid ≠ newId then updateSessionEnd st.store lid elapsed now else st.store
  | none => st.store

/-- One execution of the interval callback in `startPlaybackTracking`:
compute the elapsed time, advance `lastPollTime`, fetch, and reconcile. -/
def tick (st : TrackerState) (now : Nat) (fr : FetchResult) : TrackerState :=
  let timeSinceLastPoll := now - st.lastPollTime
  let st1 := { st with lastPollTime := now }
  match getCurrentlyPlaying fr with
  | none => endActive st1 timeSinceLastPoll now
  | some playback =>
    match playback.item with
    | none => endActive st1 timeSinceLastPoll now
    | some item =>
      let isEpisode := item.itemType = "episode"
      let isPlaying := playback.is_playing = true
      if isEpisode ∧ isPlaying then
        { st1 with
          store := storeEpisode (closeIfSwitch st1 item.id timeSinceLastPoll now)
            item playback.progress_ms timeSinceLastPoll now
          lastEpisodeId := some item.id }
      else if isEpisode ∧ ¬ isPlaying then
        st1
      else
        endActive st1 timeSinceLastPoll now

/-- `startPlaybackTracking()`: a no-op if the interval is already installed;
otherwise reset `lastPollTime` and `lastEpisodeId` and install the timer. -/
def startPlaybackTracking (st : TrackerState) (now : Nat) : TrackerState :=
  if st.polling then st
  else { st with polling := true, lastPollTime := now, lastEpisodeId := none }

/-- `stopPlaybackTracking()`: clear the interval; nothing else. -/
def stopPlaybackTracking (st : TrackerState) : TrackerState :=
  if st.polling then { st with polling := false } else st

/-- Run a sequence of ticks, each with its poll time and fetch outcome. -/
def runTicks (st : TrackerState) : List (Nat × FetchResult) → TrackerState
  | [] => st
  | (now, fr) :: rest => runTicks (tick st now fr) rest

/-- A fresh service (empty store) on which tracking is started at `now`. -/
def initialState (now : Nat) : TrackerState :=
  startPlaybackTracking { polling := false, lastPollTime := 0, lastEpisodeId := none, store := [] } now

/-- Is a session open (no `ended_at`)? -/
def isOpenSess (ss : Session) : Bool := ss.ended_at.isNone

/-- Number of open sessions in a session list. -/
def openSess (l : List Session) : Nat := (l.filter isOpenSess).length

/-- Is the last session of a session list open? -/
def lastOpenL (l : List Session) : Bool :=
  match l.getLast? with
  | some ss => ss.ended_at.isNone
  | none => false

/-- Number of open sessions on one episode record. -/
def openCount (e : StoredEpisode) : Nat := openSess e.sessions

/-- Does an episode record end in an open session? -/
def lastOpen (e : StoredEpisode) : Bool := lastOpenL e.sessions

/-- Total number of open sessions across the whole ledger. -/
def totalOpen (s : Store) : Nat := (s.map openCount).sum

theorem jsOr_zero (a : Nat) : jsOr a 0 = a := by
  unfold jsOr; split <;> omega

theorem jsOr_self (a : Nat) : jsOr a a = a := by
  unfold jsOr; split <;> rfl

theorem findEp_some {s : Store} {i : String} {e : StoredEpisode} :
    findEp s i = some e → e ∈ s ∧ e.id = i := by
  induction s with
  | nil => intro h; cases h
  | cons a t ih =>
    intro h
    by_cases ha : a.id = i
    · simp only [findEp, if_pos ha, Option.some.injEq] at h
      subst h
      exact ⟨List.mem_cons_self _ _, ha⟩
    · simp only [findEp, if_neg ha] at h
      rcases ih h with ⟨hm, hid⟩
      exact ⟨List.mem_cons_of_mem _ hm, hid⟩

theorem findEp_none {s : Store} {i : String} :
    findEp s i = none → ∀ e ∈ s, e.id ≠ i := by
  induction s with
  | nil => intro _ e he; cases he
  | cons a t ih =>
    intro h e he
    by_cases ha : a.id = i
    · simp [findEp, ha] at h
    · simp only [findEp, if_neg ha] at h
      rcases List.mem_cons.mp he with rfl | hm
      · exact ha
      · exact ih h e hm

theorem setEp_of_findEp_none {s : Store} {e : StoredEpisode}
    (h : findEp s e.id = none) : setEp s e = s ++ [e] := by
  induction s with
  | nil => rfl
  | cons a t ih =>
    by_cases ha : a.id = e.id
    · simp [findEp, ha] at h
    · simp only [findEp, if_neg ha] at h
      simp [setEp, ha, ih h]

theorem findEp_setEp_self (s : Store) (e : StoredEpisode) :
    findEp (setEp s e) e.id = some e := by
  induction s with
  | nil => simp [setEp, findEp]
  | cons a t ih =>
    by_cases ha : a.id = e.id
    · simp [setEp, ha, findEp]
    · simp [setEp, ha, findEp, ih]

theorem findEp_setEp_ne {e : StoredEpisode} {i : String} (s : Store)
    (h : e.id ≠ i) : findEp (setEp s e) i = findEp s i := by
  induction s with
  | nil => simp [setEp, findEp, h]
  | cons a t ih =>
    by_cases ha : a.id = e.id
    · have ha2 : ¬ (a.id = i) := by rw [ha]; exact h
      simp [setEp, ha, findEp, h, ha2]
    · by_cases hai : a.id = i
      · simp only [setEp, if_neg ha, findEp, if_pos hai]
      · simp only [setEp, if_neg ha, findEp, if_neg hai]
        exact ih

theorem mem_setEp {s : Store} {e x : StoredEpisode} :
    x ∈ setEp s e → x = e ∨ x ∈ s := by
  induction s with
  | nil =>
    intro h
    simp only [setEp, List.mem_singleton] at h
    exact Or.inl h
  | cons a t ih =>
    intro h
    by_cases ha : a.id = e.id
    · simp only [setEp, if_pos ha, List.mem_cons] at h
      rcases h with rfl | hm
      · exact Or.inl rfl
      · exact Or.inr (List.mem_cons_of_mem _ hm)
    · simp only [setEp, if_neg ha, List.mem_cons] at h
      rcases h with rfl | hm
      · exact Or.inr (List.mem_cons_self _ _)
      · rcases ih hm with h1 | h2
        · exact Or.inl h1
        · exact Or.inr (List.mem_cons_of_mem _ h2)

theorem map_id_setEp {e : StoredEpisode} : ∀ {s : Store} {old : StoredEpisode},
    findEp s e.id = some old →
    (setEp s e).map (fun x => x.id) = s.map (fun x => x.id) := by
  intro s
  induction s with
  | nil => intro old h; cases h
  | cons a t ih =>
    intro old h
    by_cases ha : a.id = e.id
    · simp only [setEp, if_pos ha, List.map_cons]
      rw [ha]
    · simp only [findEp, if_neg ha] at h
      simp only [setEp, if_neg ha, List.map_cons]
      rw [ih h]

theorem mem_setEp_split {e : StoredEpisode} {i : String} {x : StoredEpisode} :
    ∀ {s : Store} {old : StoredEpisode},
    findEp s i = some old → (s.map (fun y => y.id)).Nodup →
    x ∈ setEp s e → e.id = i → x = e ∨ (x ∈ s ∧ x.id ≠ i) := by
  intro s
  induction s with
  | nil => intro old hf; cases hf
  | cons a t ih =>
    intro old hf hnd hx hid
    rw [List.map_cons] at hnd
    by_cases ha : a.id = e.id
    · simp only [setEp, if_pos ha, List.mem_cons] at hx
      rcases hx with rfl | hm
      · exact Or.inl rfl
      · right
        refine ⟨List.mem_cons_of_mem _ hm, ?_⟩
        intro hxi
        have hmm : x.id ∈ t.map (fun y => y.id) := List.mem_map_of_mem _ hm
        rw [hxi] at hmm
        have hni := (List.nodup_cons.mp hnd).1
        rw [ha, hid] at hni
        exact hni hmm
    · have hai : ¬ (a.id = i) := fun hh => ha (hh.trans hid.symm)
      simp only [findEp, if_neg hai] at hf
      simp only [setEp, if_neg ha, List.mem_cons] at hx
      rcases hx with rfl | hm
      · exact Or.inr ⟨List.mem_cons_self _ _, hai⟩
      · rcases ih hf (List.nodup_cons.mp hnd).2 hm hid with h1 | ⟨h2, h3⟩
        · exact Or.inl h1
        · exact Or.inr ⟨List.mem_cons_of_mem _ h2, h3⟩

theorem eq_of_mem_of_id_eq {s : Store} (hnd : (s.map (fun e => e.id)).Nodup)
    {a b : StoredEpisode} (ha : a ∈ s) (hb : b ∈ s) (h : a.id = b.id) : a = b :=
  List.inj_on_of_nodup_map hnd ha hb h

theorem dropLast_append_getLast {α : Type} : ∀ {l : List α} {a : α},
    l.getLast? = some a → l.dropLast ++ [a] = l := by
  intro l
  induction l with
  | nil => intro a h; cases h
  | cons x t ih =>
    intro a h
    cases t with
    | nil =>
      simp only [List.getLast?_singleton, Option.some.injEq] at h
      simp [h]
    | cons y u =>
      rw [List.getLast?_cons_cons] at h
      have h2 := ih h
      simp only [List.dropLast_cons₂, List.cons_append]
      rw [h2]

theorem openSess_append (l : List Session) (a : Session) :
    openSess (l ++ [a]) = openSess l + (if isOpenSess a then 1 else 0) := by
  simp only [openSess, List.filter_append, List.length_append]
  split <;> simp_all [List.filter]

theorem lastOpenL_append (l : List Session) (a : Session) :
    lastOpenL (l ++ [a]) = isOpenSess a := by
  simp [lastOpenL, List.getLast?_concat, isOpenSess]

/-- Invariant 1 of the spec: accumulated time never exceeds the duration. -/
def TotalBounded (s : Store) : Prop :=
  ∀ e ∈ s, e.total_played_ms ≤ e.duration_ms

/-- Every stored record's duration is the one the provider assigns to its id. -/
def DurAssigned (durOf : String → Nat) (s : Store) : Prop :=
  ∀ e ∈ s, e.duration_ms = durOf e.id

/-- A snapshot item reports the provider's duration for its id. -/
def ItemConsistent (durOf : String → Nat) (item : PlaybackItem) : Prop :=
  item.duration_ms = durOf item.id

/-- A fetch outcome whose item, if any, reports the provider's duration. -/
def FetchConsistent (durOf : String → Nat) : FetchResult → Prop
  | FetchResult.ok p =>
    match p.item with
    | some item => ItemConsistent durOf item
    | none => True
  | _ => True

theorem updateSessionEnd_totalBounded {s : Store} (i : String) (t n : Nat)
    (h : TotalBounded s) : TotalBounded (updateSessionEnd s i t n) := by
  cases hf : findEp s i with
  | none => simp only [updateSessionEnd, hf]; exact h
  | some ep =>
    cases hl : ep.sessions.getLast? with
    | none => simp only [updateSessionEnd, hf, hl]; exact h
    | some lastSession =>
      by_cases he : lastSession.ended_at = none
      · simp only [updateSessionEnd, hf, hl, if_pos he]
        intro e hm
        rcases mem_setEp hm with rfl | hm2
        · simp only [jsOr_zero]
          exact min_le_right _ _
        · exact h e hm2
      · simp only [updateSessionEnd, hf, hl, if_neg he]
        exact h

theorem updateSessionEnd_durAssigned {durOf : String → Nat} {s : Store}
    (i : String) (t n : Nat) (h : DurAssigned durOf s) :
    DurAssigned durOf (updateSessionEnd s i t n) := by
  cases hf : findEp s i with
  | none => simp only [updateSessionEnd, hf]; exact h
  | some ep =>
    cases hl : ep.sessions.getLast? with
    | none => simp only [updateSessionEnd, hf, hl]; exact h
    | some lastSession =>
      by_cases he : lastSession.ended_at = none
      · simp only [updateSessionEnd, hf, hl, if_pos he]
        intro e hm
        rcases mem_setEp hm with rfl | hm2
        · exact h ep (findEp_some hf).1
        · exact h e hm2
      · simp only [updateSessionEnd, hf, hl, if_neg he]
        exact h

theorem storeEpisode_totalBounded {durOf : String → Nat} {s : Store}
    {item : PlaybackItem} (p t n : Nat)
    (hb : TotalBounded s) (hd : DurAssigned durOf s)
    (hi : ItemConsistent durOf item) :
    TotalBounded (storeEpisode s item p t n) := by
  cases hf : findEp s item.id with
  | none =>
    simp only [storeEpisode, hf]
    intro e hm
    rcases mem_setEp hm with rfl | hm2
    · simp only [mkNewEpisode, jsOr_zero]
      exact min_le_right _ _
    · exact hb e hm2
  | some existing =>
    have hmem := findEp_some hf
    have hdur : existing.duration_ms = item.duration_ms := by
      rw [hd existing hmem.1, hmem.2, hi]
    have hmax : jsOr item.duration_ms existing.duration_ms = existing.duration_ms := by
      rw [hdur, jsOr_self]
    cases hl : existing.sessions.getLast? with
    | none =>
      simp only [storeEpisode, hf, hl]
      intro e hm
      rcases mem_setEp hm with rfl | hm2
      · simp only [hmax]
        exact min_le_right _ _
      · exact hb e hm2
    | some currentSession =>
      by_cases he : currentSession.ended_at = none
      · simp only [storeEpisode, hf, hl, if_pos he]
        intro e hm
        rcases mem_setEp hm with rfl | hm2
        · simp only [hmax]
          exact min_le_right _ _
        · exact hb e hm2
      · simp only [storeEpisode, hf, hl, if_neg he]
        intro e hm
        rcases mem_setEp hm with rfl | hm2
        · simp only [hmax]
          exact min_le_right _ _
        · exact hb e hm2

theorem storeEpisode_durAssigned {durOf : String → Nat} {s : Store}
    {item : PlaybackItem} (p t n : Nat)
    (hd : DurAssigned durOf s) (hi : ItemConsistent durOf item) :
    DurAssigned durOf (storeEpisode s item p t n) := by
  cases hf : findEp s item.id with
  | none =>
    simp only [storeEpisode, hf]
    intro e hm
    rcases mem_setEp hm with rfl | hm2
    · simp only [mkNewEpisode]
      exact hi
    · exact hd e hm2
  | some existing =>
    have hmem := findEp_some hf
    cases hl : existing.sessions.getLast? with
    | none =>
      simp only [storeEpisode, hf, hl]
      intro e hm
      rcases mem_setEp hm with rfl | hm2
      · exact hd existing hmem.1
      · exact hd e hm2
    | some currentSession =>
      by_cases he : currentSession.ended_at = none
      · simp only [storeEpisode, hf, hl, if_pos he]
        intro e hm
        rcases mem_setEp hm with rfl | hm2
        · exact hd existing hmem.1
        · exact hd e hm2
      · simp only [storeEpisode, hf, hl, if_neg he]
        intro e hm
        rcases mem_setEp hm with rfl | hm2
        · exact hd existing hmem.1
        · exact hd e hm2

theorem closeIfSwitch_cases (st : TrackerState) (newId : String)
    (elapsed now : Nat) :
    closeIfSwitch st newId elapsed now = st.store ∨
    ∃ lid, st.lastEpisodeId = some lid ∧ lid ≠ newId ∧
      closeIfSwitch st newId elapsed now = updateSessionEnd st.store lid elapsed now := by
  cases h : st.lastEpisodeId with
  | none =>
    have he : closeIfSwitch st newId elapsed now = st.store := by
      simp only [closeIfSwitch, h]
    exact Or.inl he
  | some lid =>
    by_cases h2 : lid ≠ newId
    · have he : closeIfSwitch st newId elapsed now =
          updateSessionEnd st.store lid elapsed now := by
        simp only [closeIfSwitch, h, if_pos h2]
      exact Or.inr ⟨lid, rfl, h2, he⟩
    · have he : closeIfSwitch st newId elapsed now = st.store := by
        simp only [closeIfSwitch, h, if_neg h2]
      exact Or.inl he

theorem endActive_store (st : TrackerState) (elapsed now : Nat) :
    (endActive st elapsed now).store = st.store ∨
    ∃ lid, st.lastEpisodeId = some lid ∧
      (endActive st elapsed now).store = updateSessionEnd st.store lid elapsed now := by
  unfold endActive
  cases h : st.lastEpisodeId with
  | none => exact Or.inl rfl
  | some lid => exact Or.inr ⟨lid, rfl, rfl⟩

theorem tick_bounded {durOf : String → Nat} {st : TrackerState} {now : Nat}
    {fr : FetchResult} (hb : TotalBounded st.store)
    (hd : DurAssigned durOf st.store) (hc : FetchConsistent durOf fr) :
    TotalBounded (tick st now fr).store ∧ DurAssigned durOf (tick st now fr).store := by
  have hend : TotalBounded (endActive { st with lastPollTime := now } (now - st.lastPollTime) now).store ∧
      DurAssigned durOf (endActive { st with lastPollTime := now } (now - st.lastPollTime) now).store := by
    rcases endActive_store { st with lastPollTime := now } (now - st.lastPollTime) now with h | ⟨lid, _, h⟩ <;>
      rw [h]
    · exact ⟨hb, hd⟩
    · exact ⟨updateSessionEnd_totalBounded _ _ _ hb, updateSessionEnd_durAssigned _ _ _ hd⟩
  cases fr with
  | unavailable => simp only [tick, getCurrentlyPlaying]; exact hend
  | noContent => simp only [tick, getCurrentlyPlaying]; exact hend
  | ok playback =>
    cases hpi : playback.item with
    | none =>
      simp only [tick, getCurrentlyPlaying, hpi]
      exact hend
    | some item =>
      have hi : ItemConsistent durOf item := by
        simp only [FetchConsistent, hpi] at hc
        exact hc
      simp only [tick, getCurrentlyPlaying, hpi]
      by_cases h1 : item.itemType = "episode" ∧ playback.is_playing = true
      · rw [if_pos h1]
        have hcb : TotalBounded (closeIfSwitch { st with lastPollTime := now } item.id (now - st.lastPollTime) now) ∧
            DurAssigned durOf (closeIfSwitch { st with lastPollTime := now } item.id (now - st.lastPollTime) now) := by
          rcases closeIfSwitch_cases { st with lastPollTime := now } item.id (now - st.lastPollTime) now with
            h | ⟨lid, _, _, h⟩ <;> rw [h]
          · exact ⟨hb, hd⟩
          · exact ⟨updateSessionEnd_totalBounded _ _ _ hb,
                   updateSessionEnd_durAssigned _ _ _ hd⟩
        exact ⟨storeEpisode_totalBounded _ _ _ hcb.1 hcb.2 hi,
               storeEpisode_durAssigned _ _ _ hcb.2 hi⟩
      · rw [if_neg h1]
        by_cases h2 : item.itemType = "episode" ∧ ¬ playback.is_playing = true
        · rw [if_pos h2]
          exact ⟨hb, hd⟩
        · rw [if_neg h2]
          exact hend

theorem runTicks_bounded {durOf : String → Nat} :
    ∀ (ticks : List (Nat × FetchResult)) (st : TrackerState),
    TotalBounded st.store → DurAssigned durOf st.store →
    (∀ x ∈ ticks, FetchConsistent durOf x.2) →
    TotalBounded (runTicks st ticks).store := by
  intro ticks
  induction ticks with
  | nil => intro st hb _ _; exact hb
  | cons x rest ih =>
    intro st hb hd hc
    obtain ⟨now, fr⟩ := x
    have h1 := @tick_bounded durOf st now fr hb hd (hc _ (List.mem_cons_self _ _))
    exact ih _ h1.1 h1.2 (fun y hy => hc y (List.mem_cons_of_mem _ hy))

theorem initialState_store (t0 : Nat) : (initialState t0).store = [] := rfl

/-- Ledger keys are unique (as they are for a JS object). -/
def IdsNodup (s : Store) : Prop := (s.map (fun e => e.id)).Nodup

/-- The in-run shape behind invariant 2: keys are unique, every record has
at most one open session (necessarily its last), and an open session can
only belong to the episode the loop believes active. -/
def OpenInv (st : TrackerState) : Prop :=
  IdsNodup st.store ∧
  ∀ e ∈ st.store, openCount e = (if lastOpen e then 1 else 0) ∧
    (lastOpen e = true → st.lastEpisodeId = some e.id)

theorem one_le_openSess_of_lastOpen {l : List Session}
    (h : lastOpenL l = true) : 1 ≤ openSess l := by
  cases hl : l.getLast? with
  | none => simp [lastOpenL, hl] at h
  | some a =>
    simp only [lastOpenL, hl] at h
    have h2 := dropLast_append_getLast hl
    have h4 := openSess_append l.dropLast a
    rw [h2] at h4
    have h5 : isOpenSess a = true := h
    simp [h5] at h4
    omega

theorem lastOpen_false_of_openCount_zero {e : StoredEpisode}
    (h : openCount e = 0) : lastOpen e = false := by
  cases hb : lastOpen e with
  | false => rfl
  | true =>
    have := one_le_openSess_of_lastOpen hb
    unfold openCount at h
    omega

theorem map_id_updateSessionEnd (s : Store) (lid : String) (t n : Nat) :
    (updateSessionEnd s lid t n).map (fun e => e.id) = s.map (fun e => e.id) := by
  cases hf : findEp s lid with
  | none => simp only [updateSessionEnd, hf]
  | some ep =>
    cases hl : ep.sessions.getLast? with
    | none => simp only [updateSessionEnd, hf, hl]
    | some lastSession =>
      by_cases he : lastSession.ended_at = none
      · simp only [updateSessionEnd, hf, hl, if_pos he]
        exact map_id_setEp (by rw [(findEp_some hf).2]; exact hf)
      · simp only [updateSessionEnd, hf, hl, if_neg he]

theorem setEp_nodup {s : Store} {e old : StoredEpisode}
    (h : findEp s e.id = some old) (hnd : IdsNodup s) : IdsNodup (setEp s e) := by
  unfold IdsNodup
  rw [map_id_setEp h]
  exact hnd

theorem storeEpisode_idsNodup {s : Store} {item : PlaybackItem} (p t n : Nat)
    (hnd : IdsNodup s) : IdsNodup (storeEpisode s item p t n) := by
  cases hf : findEp s item.id with
  | none =>
    simp only [storeEpisode, hf]
    unfold IdsNodup
    rw [setEp_of_findEp_none hf, List.map_append]
    rw [List.nodup_append]
    refine ⟨hnd, by simp, ?_⟩
    intro x hx
    rcases List.mem_map.mp hx with ⟨e, hm, rfl⟩
    simp only [List.map_cons, List.map_nil, List.mem_singleton]
    exact fun hh => findEp_none hf e hm hh
  | some existing =>
    have hmem := findEp_some hf
    have hfind : findEp s existing.id = some existing := by
      rw [hmem.2]; exact hf
    cases hl : existing.sessions.getLast? with
    | none =>
      simp only [storeEpisode, hf, hl]
      exact setEp_nodup hfind hnd
    | some currentSession =>
      by_cases he : currentSession.ended_at = none
      · simp only [storeEpisode, hf, hl, if_pos he]
        exact setEp_nodup hfind hnd
      · simp only [storeEpisode, hf, hl, if_neg he]
        exact setEp_nodup hfind hnd

theorem updateSessionEnd_closes {s : Store} {lid : String} (t n : Nat)
    (hnd : IdsNodup s)
    (hinv : ∀ e ∈ s, openCount e = (if lastOpen e then 1 else 0) ∧
      (lastOpen e = true → e.id = lid)) :
    ∀ e ∈ updateSessionEnd s lid t n, openCount e = 0 := by
  cases hf : findEp s lid with
  | none =>
    simp only [updateSessionEnd, hf]
    intro e hm
    by_cases ho : lastOpen e = true
    · exact absurd ((hinv e hm).2 ho) (findEp_none hf e hm)
    · rw [(hinv e hm).1]
      simp [Bool.not_eq_true] at ho
      simp [ho]
  | some ep =>
    have hmem := findEp_some hf
    cases hl : ep.sessions.getLast? with
    | none =>
      simp only [updateSessionEnd, hf, hl]
      intro e hm
      by_cases ho : lastOpen e = true
      · have hid : e.id = lid := (hinv e hm).2 ho
        have heq : e = ep := eq_of_mem_of_id_eq hnd hm hmem.1 (by rw [hid, hmem.2])
        subst heq
        simp [lastOpen, lastOpenL, hl] at ho
      · rw [(hinv e hm).1]
        simp [Bool.not_eq_true] at ho
        simp [ho]
    | some lastSession =>
      by_cases he : lastSession.ended_at = none
      · simp only [updateSessionEnd, hf, hl, if_pos he]
        intro e hm
        rcases mem_setEp_split hf hnd hm hmem.2 with rfl | ⟨hm2, hne⟩
        · -- the closed record: its previous sessions hold no open one
          have hopen : lastOpen ep = true := by
            simp [lastOpen, lastOpenL, hl, he]
          have h1 : openCount ep = 1 := by
            rw [(hinv ep hmem.1).1, if_pos hopen]
          unfold openCount at h1
          have hsplit := dropLast_append_getLast hl
          have h3 := openSess_append ep.sessions.dropLast lastSession
          rw [hsplit] at h3
          have h5 : isOpenSess lastSession = true := by simp [isOpenSess, he]
          simp only [h5, if_true] at h3
          show openSess (ep.sessions.dropLast ++
            [{ lastSession with ended_at := some n }]) = 0
          rw [openSess_append]
          have h6 : isOpenSess { lastSession with ended_at := some n } = false := by
            simp [isOpenSess]
          simp only [h6, Bool.false_eq_true, if_false]
          omega
        · by_cases ho : lastOpen e = true
          · exact absurd ((hinv e hm2).2 ho) hne
          · rw [(hinv e hm2).1]
            simp [Bool.not_eq_true] at ho
            simp [ho]
      · simp only [updateSessionEnd, hf, hl, if_neg he]
        intro e hm
        by_cases ho : lastOpen e = true
        · have hid : e.id = lid := (hinv e hm).2 ho
          have heq : e = ep := eq_of_mem_of_id_eq hnd hm hmem.1 (by rw [hid, hmem.2])
          subst heq
          simp only [lastOpen, lastOpenL, hl] at ho
          exact absurd (Option.isNone_iff_eq_none.mp ho) he
        · rw [(hinv e hm).1]
          simp [Bool.not_eq_true] at ho
          simp [ho]

theorem storeEpisode_opens {s : Store} {item : PlaybackItem} (p t n : Nat)
    (hnd : IdsNodup s)
    (hinv : ∀ e ∈ s, openCount e = (if lastOpen e then 1 else 0) ∧
      (lastOpen e = true → e.id = item.id)) :
    ∀ e ∈ storeEpisode s item p t n,
      openCount e = (if lastOpen e then 1 else 0) ∧
      (lastOpen e = true → e.id = item.id) := by
  cases hf : findEp s item.id with
  | none =>
    simp only [storeEpisode, hf]
    intro e hm
    rw [setEp_of_findEp_none hf] at hm
    rcases List.mem_append.mp hm with hm2 | hm2
    · exact hinv e hm2
    · rw [List.mem_singleton] at hm2
      subst hm2
      have hop : lastOpen (mkNewEpisode item p t n) = true := by
        simp [mkNewEpisode, lastOpen, lastOpenL]
      have hoc : openCount (mkNewEpisode item p t n) = 1 := by
        simp [mkNewEpisode, openCount, openSess, isOpenSess, List.filter]
      exact ⟨by rw [hoc, if_pos hop], fun _ => rfl⟩
  | some existing =>
    have hmem := findEp_some hf
    cases hl : existing.sessions.getLast? with
    | none =>
      -- no session yet: a fresh open session is pushed
      have hop0 : lastOpen existing = false := by
        simp [lastOpen, lastOpenL, hl]
      have hoc0 : openCount existing = 0 := by
        rw [(hinv existing hmem.1).1, hop0]
        simp
      simp only [storeEpisode, hf, hl]
      intro e hm
      rcases mem_setEp_split hf hnd hm hmem.2 with rfl | ⟨hm2, hne⟩
      · constructor
        · show openSess (existing.sessions ++
            [{ started_at := n, ended_at := none, progress_ms := p }]) =
            if lastOpenL (existing.sessions ++
              [{ started_at := n, ended_at := none, progress_ms := p }]) then 1 else 0
          rw [openSess_append, lastOpenL_append]
          unfold openCount at hoc0
          simp [isOpenSess, hoc0]
        · intro _
          exact hmem.2
      · by_cases ho : lastOpen e = true
        · exact absurd ((hinv e hm2).2 ho) hne
        · rw [(hinv e hm2).1]
          simp [Bool.not_eq_true] at ho
          simp [ho]
    | some currentSession =>
      by_cases he : currentSession.ended_at = none
      · -- open session gets extended, staying open
        have hop1 : lastOpen existing = true := by
          simp [lastOpen, lastOpenL, hl, he]
        have hoc1 : openCount existing = 1 := by
          rw [(hinv existing hmem.1).1, if_pos hop1]
        unfold openCount at hoc1
        have hsplit := dropLast_append_getLast hl
        have h3 := openSess_append existing.sessions.dropLast currentSession
        rw [hsplit] at h3
        have h5 : isOpenSess currentSession = true := by simp [isOpenSess, he]
        simp only [h5, if_true] at h3
        simp only [storeEpisode, hf, hl, if_pos he]
        intro e hm
        rcases mem_setEp_split hf hnd hm hmem.2 with rfl | ⟨hm2, hne⟩
        · constructor
          · show openSess (existing.sessions.dropLast ++
              [{ currentSession with
                  progress_ms := min p (jsOr item.duration_ms existing.duration_ms) }]) =
              if lastOpenL (existing.sessions.dropLast ++
                [{ currentSession with
                    progress_ms := min p (jsOr item.duration_ms existing.duration_ms) }]) then 1 else 0
            rw [openSess_append, lastOpenL_append]
            have h7 : isOpenSess { currentSession with
                progress_ms := min p (jsOr item.duration_ms existing.duration_ms) } = true := by
              simp [isOpenSess, he]
            simp [h7]
            omega
          · intro _
            exact hmem.2
        · by_cases ho : lastOpen e = true
          · exact absurd ((hinv e hm2).2 ho) hne
          · rw [(hinv e hm2).1]
            simp [Bool.not_eq_true] at ho
            simp [ho]
      · -- last session closed: a fresh open session is pushed
        have hop0 : lastOpen existing = false := by
          simp only [lastOpen, lastOpenL, hl]
          cases hc : currentSession.ended_at with
          | none => exact absurd hc he
          | some v => simp
        have hoc0 : openCount existing = 0 := by
          rw [(hinv existing hmem.1).1, hop0]
          simp
        simp only [storeEpisode, hf, hl, if_neg he]
        intro e hm
        rcases mem_setEp_split hf hnd hm hmem.2 with rfl | ⟨hm2, hne⟩
        · constructor
          · show openSess (existing.sessions ++
              [{ started_at := n, ended_at := none, progress_ms := p }]) =
              if lastOpenL (existing.sessions ++
                [{ started_at := n, ended_at := none, progress_ms := p }]) then 1 else 0
            rw [openSess_append, lastOpenL_append]
            unfold openCount at hoc0
            simp [isOpenSess, hoc0]
          · intro _
            exact hmem.2
        · by_cases ho : lastOpen e = true
          · exact absurd ((hinv e hm2).2 ho) hne
          · rw [(hinv e hm2).1]
            simp [Bool.not_eq_true] at ho
            simp [ho]

theorem endActive_closes {st : TrackerState} (elapsed now : Nat)
    (hnd : IdsNodup st.store)
    (hinv : ∀ e ∈ st.store, openCount e = (if lastOpen e then 1 else 0) ∧
      (lastOpen e = true → st.lastEpisodeId = some e.id)) :
    (endActive st elapsed now).lastEpisodeId = none ∧
    IdsNodup (endActive st elapsed now).store ∧
    ∀ e ∈ (endActive st elapsed now).store, openCount e = 0 := by
  cases hle : st.lastEpisodeId with
  | none =>
    have hea : endActive st elapsed now = st := by
      simp only [endActive, hle]
    rw [hea]
    refine ⟨hle, hnd, ?_⟩
    intro e hm
    by_cases ho : lastOpen e = true
    · have := (hinv e hm).2 ho
      rw [hle] at this
      cases this
    · rw [(hinv e hm).1]
      simp [Bool.not_eq_true] at ho
      simp [ho]
  | some lid =>
    have hea : endActive st elapsed now =
        { st with store := updateSessionEnd st.store lid elapsed now
                  lastEpisodeId := none } := by
      simp only [endActive, hle]
    rw [hea]
    refine ⟨rfl, ?_, ?_⟩
    · unfold IdsNodup
      rw [map_id_updateSessionEnd]
      exact hnd
    · apply updateSessionEnd_closes _ _ hnd
      intro e hm
      refine ⟨(hinv e hm).1, fun ho => ?_⟩
      have := (hinv e hm).2 ho
      rw [hle] at this
      exact (Option.some.inj this).symm

theorem totalOpen_eq_zero {s : Store} (h : ∀ e ∈ s, openCount e = 0) :
    totalOpen s = 0 := by
  unfold totalOpen
  apply List.sum_eq_zero
  intro x hx
  rcases List.mem_map.mp hx with ⟨e, hm, rfl⟩
  exact h e hm

theorem totalOpen_le_one : ∀ (s : Store) (o : Option String),
    IdsNodup s →
    (∀ e ∈ s, openCount e = (if lastOpen e then 1 else 0) ∧
      (lastOpen e = true → o = some e.id)) →
    totalOpen s ≤ 1 := by
  intro s
  induction s with
  | nil => intro o _ _; simp [totalOpen]
  | cons a tl ih =>
    intro o hnd hinv
    unfold IdsNodup at hnd
    rw [List.map_cons] at hnd
    have hnd2 := List.nodup_cons.mp hnd
    unfold totalOpen
    rw [List.map_cons, List.sum_cons]
    by_cases ho : lastOpen a = true
    · have ha : openCount a = 1 := by
        rw [(hinv a (List.mem_cons_self _ _)).1, if_pos ho]
      have hoa : o = some a.id := (hinv a (List.mem_cons_self _ _)).2 ho
      have ht : ∀ e ∈ tl, openCount e = 0 := by
        intro e hm
        by_cases ho2 : lastOpen e = true
        · exfalso
          have h2 := (hinv e (List.mem_cons_of_mem _ hm)).2 ho2
          rw [hoa] at h2
          have hid : a.id = e.id := Option.some.inj h2
          exact hnd2.1 (hid ▸ List.mem_map_of_mem _ hm)
        · rw [(hinv e (List.mem_cons_of_mem _ hm)).1]
          simp [Bool.not_eq_true] at ho2
          simp [ho2]
      have hz : totalOpen tl = 0 := totalOpen_eq_zero ht
      unfold totalOpen at hz
      omega
    · have ha : openCount a = 0 := by
        rw [(hinv a (List.mem_cons_self _ _)).1]
        simp [Bool.not_eq_true] at ho
        simp [ho]
      have := ih o hnd2.2 (fun e hm => hinv e (List.mem_cons_of_mem _ hm))
      unfold totalOpen at this
      omega

theorem tick_openInv {st : TrackerState} {now : Nat} {fr : FetchResult}
    (h : OpenInv st) : OpenInv (tick st now fr) := by
  obtain ⟨hnd, hinv⟩ := h
  have hend : OpenInv (endActive { st with lastPollTime := now } (now - st.lastPollTime) now) := by
    have h1 := @endActive_closes { st with lastPollTime := now }
      (now - st.lastPollTime) now hnd hinv
    refine ⟨h1.2.1, ?_⟩
    intro e hm
    have hz := h1.2.2 e hm
    have hof := lastOpen_false_of_openCount_zero hz
    refine ⟨by rw [hz, hof]; simp, fun ho => ?_⟩
    rw [hof] at ho
    cases ho
  cases fr with
  | unavailable => simp only [tick, getCurrentlyPlaying]; exact hend
  | noContent => simp only [tick, getCurrentlyPlaying]; exact hend
  | ok playback =>
    cases hpi : playback.item with
    | none =>
      simp only [tick, getCurrentlyPlaying, hpi]
      exact hend
    | some item =>
      simp only [tick, getCurrentlyPlaying, hpi]
      by_cases h1 : item.itemType = "episode" ∧ playback.is_playing = true
      · rw [if_pos h1]
        -- before the upsert, any open session belongs to `item.id`
        have hcls : IdsNodup (closeIfSwitch { st with lastPollTime := now } item.id (now - st.lastPollTime) now) ∧
            ∀ e ∈ closeIfSwitch { st with lastPollTime := now } item.id (now - st.lastPollTime) now,
              openCount e = (if lastOpen e then 1 else 0) ∧
              (lastOpen e = true → e.id = item.id) := by
          cases hle : st.lastEpisodeId with
          | none =>
            simp only [closeIfSwitch]
            refine ⟨hnd, ?_⟩
            intro e hm
            refine ⟨(hinv e hm).1, fun ho => ?_⟩
            have h3 := (hinv e hm).2 ho
            rw [hle] at h3
            cases h3
          | some lid =>
            by_cases h2 : lid ≠ item.id
            · simp only [closeIfSwitch, if_pos h2]
              have hcl := @updateSessionEnd_closes st.store lid (now - st.lastPollTime) now hnd ?_
              · refine ⟨?_, ?_⟩
                · unfold IdsNodup
                  rw [map_id_updateSessionEnd]
                  exact hnd
                · intro e hm
                  have hz := hcl e hm
                  have hof := lastOpen_false_of_openCount_zero hz
                  refine ⟨by rw [hz, hof]; simp, fun ho => ?_⟩
                  rw [hof] at ho
                  cases ho
              · intro e hm
                refine ⟨(hinv e hm).1, fun ho => ?_⟩
                have := (hinv e hm).2 ho
                rw [hle] at this
                exact (Option.some.inj this).symm
            · simp only [closeIfSwitch, if_neg h2]
              refine ⟨hnd, ?_⟩
              intro e hm
              refine ⟨(hinv e hm).1, fun ho => ?_⟩
              have h3 := (hinv e hm).2 ho
              rw [hle] at h3
              have h4 := Option.some.inj h3
              simp [Ne, Classical.not_not] at h2
              rw [← h4, h2]
        constructor
        · exact storeEpisode_idsNodup _ _ _ hcls.1
        · intro e hm
          have h5 := storeEpisode_opens playback.progress_ms (now - st.lastPollTime) now
            hcls.1 hcls.2 e hm
          exact ⟨h5.1, fun ho => by rw [h5.2 ho]⟩
      · rw [if_neg h1]
        by_cases h2 : item.itemType = "episode" ∧ ¬ playback.is_playing = true
        · rw [if_pos h2]
          exact ⟨hnd, hinv⟩
        · rw [if_neg h2]
          exact hend

theorem findEp_setEp_id {e : StoredEpisode} {i : String} (s : Store)
    (h : e.id = i) : findEp (setEp s e) i = some e := by
  subst h
  exact findEp_setEp_self s e

theorem findEp_updateSessionEnd_ne {s : Store} {lid i : String} (t n : Nat)
    (h : lid ≠ i) : findEp (updateSessionEnd s lid t n) i = findEp s i := by
  cases hf : findEp s lid with
  | none => simp only [updateSessionEnd, hf]
  | some ep =>
    cases hl : ep.sessions.getLast? with
    | none => simp only [updateSessionEnd, hf, hl]
    | some lastSession =>
      by_cases he : lastSession.ended_at = none
      · simp only [updateSessionEnd, hf, hl, if_pos he]
        have hne : ep.id ≠ i := by
          rw [(findEp_some hf).2]
          exact h
        exact findEp_setEp_ne s hne
      · simp only [updateSessionEnd, hf, hl, if_neg he]

theorem findEp_storeEpisode_ne {s : Store} {item : PlaybackItem} {i : String}
    (p t n : Nat) (h : item.id ≠ i) :
    findEp (storeEpisode s item p t n) i = findEp s i := by
  cases hf : findEp s item.id with
  | none =>
    simp only [storeEpisode, hf]
    exact findEp_setEp_ne s h
  | some existing =>
    have hne : existing.id ≠ i := by
      rw [(findEp_some hf).2]
      exact h
    cases hl : existing.sessions.getLast? with
    | none =>
      simp only [storeEpisode, hf, hl]
      exact findEp_setEp_ne s hne
    | some currentSession =>
      by_cases he : currentSession.ended_at = none
      · simp only [storeEpisode, hf, hl, if_pos he]
        exact findEp_setEp_ne s hne
      · simp only [storeEpisode, hf, hl, if_neg he]
        exact findEp_setEp_ne s hne

theorem storeEpisode_opens_fresh {s : Store} {item : PlaybackItem} (p t n : Nat)
    (h : ∀ e, findEp s item.id = some e → lastOpen e = false) :
    ∃ ey, findEp (storeEpisode s item p t n) item.id = some ey ∧
      lastOpen ey = true ∧
      ey.sessions.getLast? =
        some { started_at := n, ended_at := none, progress_ms := p } := by
  cases hf : findEp s item.id with
  | none =>
    simp only [storeEpisode, hf]
    refine ⟨_, findEp_setEp_id s rfl, ?_, ?_⟩
    · simp [mkNewEpisode, lastOpen, lastOpenL]
    · simp [mkNewEpisode]
  | some existing =>
    have hlo := h existing hf
    have hid := (findEp_some hf).2
    cases hl : existing.sessions.getLast? with
    | none =>
      simp only [storeEpisode, hf, hl]
      refine ⟨_, findEp_setEp_id s hid, ?_, ?_⟩
      · show lastOpenL (existing.sessions ++
          [{ started_at := n, ended_at := none, progress_ms := p }]) = true
        rw [lastOpenL_append]
        simp [isOpenSess]
      · show (existing.sessions ++
          [({ started_at := n, ended_at := none, progress_ms := p } : Session)]).getLast? = _
        rw [List.getLast?_concat]
    | some currentSession =>
      by_cases he : currentSession.ended_at = none
      · exfalso
        have hcon : lastOpen existing = true := by
          simp [lastOpen, lastOpenL, hl, he]
        rw [hlo] at hcon
        cases hcon
      · simp only [storeEpisode, hf, hl, if_neg he]
        refine ⟨_, findEp_setEp_id s hid, ?_, ?_⟩
        · show lastOpenL (existing.sessions ++
            [{ started_at := n, ended_at := none, progress_ms := p }]) = true
          rw [lastOpenL_append]
          simp [isOpenSess]
        · show (existing.sessions ++
            [({ started_at := n, ended_at := none, progress_ms := p } : Session)]).getLast? = _
          rw [List.getLast?_concat]

theorem updateSessionEnd_closes_active {s : Store} {lid : String}
    {ex : StoredEpisode} {cur : Session} (t n : Nat)
    (hf : findEp s lid = some ex) (hl : ex.sessions.getLast? = some cur)
    (he : cur.ended_at = none) :
    ∃ ex2, findEp (updateSessionEnd s lid t n) lid = some ex2 ∧
      lastOpen ex2 = false ∧
      ex2.total_played_ms = min (ex.total_played_ms + t) (jsOr ex.duration_ms 0) := by
  simp only [updateSessionEnd, hf, hl, if_pos he]
  refine ⟨_, findEp_setEp_id s (findEp_some hf).2, ?_, rfl⟩
  show lastOpenL (ex.sessions.dropLast ++ [{ cur with ended_at := some n }]) = false
  rw [lastOpenL_append]
  simp [isOpenSess]

theorem updateSessionEnd_noop {s : Store} {i : String} (t n : Nat)
    (h : ∀ e, findEp s i = some e → lastOpen e = false) :
    updateSessionEnd s i t n = s := by
  cases hf : findEp s i with
  | none => simp only [updateSessionEnd, hf]
  | some ep =>
    have hl2 := h ep hf
    cases hl : ep.sessions.getLast? with
    | none => simp only [updateSessionEnd, hf, hl]
    | some lastSession =>
      by_cases he : lastSession.ended_at = none
      · exfalso
        have hcon : lastOpen ep = true := by
          simp [lastOpen, lastOpenL, hl, he]
        rw [hl2] at hcon
        cases hcon
      · simp only [updateSessionEnd, hf, hl, if_neg he]

theorem storeEpisode_metadata {s : Store} {item : PlaybackItem}
    {ex : StoredEpisode} (p t n : Nat) (h : findEp s item.id = some ex) :
    ∃ ex2, findEp (storeEpisode s item p t n) item.id = some ex2 ∧
      ex2.name = ex.name ∧ ex2.description = ex.description ∧
      ex2.duration_ms = ex.duration_ms ∧ ex2.release_date = ex.release_date ∧
      ex2.images = ex.images ∧ ex2.itemType = ex.itemType ∧
      ex2.showInfo = ex.showInfo ∧ ex2.first_played_at = ex.first_played_at := by
  have hid := (findEp_some h).2
  cases hl : ex.sessions.getLast? with
  | none =>
    simp only [storeEpisode, h, hl]
    exact ⟨_, findEp_setEp_id s hid, rfl, rfl, rfl, rfl, rfl, rfl, rfl, rfl⟩
  | some currentSession =>
    by_cases he : currentSession.ended_at = none
    · simp only [storeEpisode, h, hl, if_pos he]
      exact ⟨_, findEp_setEp_id s hid, rfl, rfl, rfl, rfl, rfl, rfl, rfl, rfl⟩
    · simp only [storeEpisode, h, hl, if_neg he]
      exact ⟨_, findEp_setEp_id s hid, rfl, rfl, rfl, rfl, rfl, rfl, rfl, rfl⟩

theorem tick_playing {st : TrackerState} {now : Nat} {playback : PlaybackState}
    {item : PlaybackItem} (hpi : playback.item = some item)
    (hep : item.itemType = "episode") (hpl : playback.is_playing = true) :
    tick st now (FetchResult.ok playback) =
      { st with
        lastPollTime := now
        store := storeEpisode
          (closeIfSwitch { st with lastPollTime := now } item.id
            (now - st.lastPollTime) now)
          item playback.progress_ms (now - st.lastPollTime) now
        lastEpisodeId := some item.id } := by
  simp only [tick, getCurrentlyPlaying, hpi]
  rw [if_pos ⟨hep, hpl⟩]

theorem tick_paused {st : TrackerState} {now : Nat} {playback : PlaybackState}
    {item : PlaybackItem} (hpi : playback.item = some item)
    (hep : item.itemType = "episode") (hpl : playback.is_playing = false) :
    tick st now (FetchResult.ok playback) = { st with lastPollTime := now } := by
  simp only [tick, getCurrentlyPlaying, hpi]
  have h1 : ¬ (item.itemType = "episode" ∧ playback.is_playing = true) := by
    rintro ⟨-, hc⟩
    rw [hpl] at hc
    cases hc
  have h2 : item.itemType = "episode" ∧ ¬ playback.is_playing = true := by
    refine ⟨hep, ?_⟩
    rw [hpl]
    simp
  rw [if_neg h1, if_pos h2]

theorem stopPlaybackTracking_store (st : TrackerState) :
    (stopPlaybackTracking st).store = st.store := by
  unfold stopPlaybackTracking
  split <;> rfl

theorem initialState_openInv (t0 : Nat) : OpenInv (initialState t0) := by
  constructor
  · simp [initialState, startPlaybackTracking, IdsNodup]
  · intro e hm
    simp [initialState, startPlaybackTracking] at hm

theorem getStoredEpisodes_perm (s : Store) : (getStoredEpisodes s).Perm s :=
  List.mergeSort_perm s _

theorem getStoredEpisodes_sorted (s : Store) :
    (getStoredEpisodes s).Pairwise
      (fun a b => b.last_played_at ≤ a.last_played_at) := by
  unfold getStoredEpisodes
  have htrans : ∀ (a b c : StoredEpisode),
      Nat.ble b.last_played_at a.last_played_at = true →
      Nat.ble c.last_played_at b.last_played_at = true →
      Nat.ble c.last_played_at a.last_played_at = true := by
    intro a b c hab hbc
    simp only [Nat.ble_eq] at *
    omega
  have htotal : ∀ (a b : StoredEpisode),
      (Nat.ble b.last_played_at a.last_played_at ||
       Nat.ble a.last_played_at b.last_played_at) = true := by
    intro a b
    rcases Nat.le_total b.last_played_at a.last_played_at with h | h <;>
      simp [Nat.ble_eq, h]
  have h := List.sorted_mergeSort htrans htotal s
  exact h.imp (fun hab => Nat.le_of_ble_eq_true hab)

/-- Fixture: a show whose publisher is "Acme". -/
def exShow : ShowInfo :=
  { id := "S1", name := "MyShow", publisher := "Acme", images := [] }

/-- Fixture: episode X, 600 s long, with one open session and no time yet. -/
def epX : StoredEpisode :=
  { id := "X", name := "EpX", description := "", duration_ms := 600000,
    release_date := "", images := [], itemType := "episode", showInfo := exShow,
    played_at := 5000, progress_ms := 0, total_played_ms := 0,
    last_played_at := 5000, first_played_at := 5000,
    sessions := [{ started_at := 5000, ended_at := none, progress_ms := 0 }] }

/-- Fixture: episode X with its only session already closed. -/
def epXClosed : StoredEpisode :=
  { epX with
    sessions := [{ started_at := 5000, ended_at := some 9000, progress_ms := 0 }] }

/-- Fixture: a tracker mid-run, active on X, last polled at t = 10000 ms. -/
def exSt : TrackerState :=
  { polling := true, lastPollTime := 10000, lastEpisodeId := some "X",
    store := [epX] }

/-- Fixture: the playback item for episode X. -/
def itemX : PlaybackItem :=
  { id := "X", name := "EpX", description := "", duration_ms := 600000,
    release_date := "", images := [], itemType := "episode",
    showOpt := some exShow }

/-- Fixture: the playback item for a different episode Y. -/
def itemY : PlaybackItem :=
  { id := "Y", name := "EpY", description := "", duration_ms := 600000,
    release_date := "", images := [], itemType := "episode",
    showOpt := some exShow }

/-- Fixture: a later snapshot of X carrying no metadata (no show object). -/
def itemXEmptyMeta : PlaybackItem :=
  { id := "X", name := "", description := "", duration_ms := 600000,
    release_date := "", images := [], itemType := "episode", showOpt := none }

/-- Fixture: two consistent ticks (X playing, then nothing). -/
def exTicks : List (Nat × FetchResult) :=
  [(20000, FetchResult.ok { item := some itemX, is_playing := true, progress_ms := 5000 }),
   (30000, FetchResult.noContent)]

/-- C1 counterexample: on an `Unavailable` tick with episode X active and an
open session, the loop closes that session (`ended_at` set to the tick time)
and attributes the elapsed 10000 ms to X, contradicting the claimed no-op. -/
theorem C1_counterexample :
    ((findEp (tick exSt 20000 FetchResult.unavailable).store "X").map
      (fun e => (e.total_played_ms, e.sessions.map (fun ss => ss.ended_at))) =
      some (10000, [some 20000])) ∧
    (findEp exSt.store "X").map (fun e => e.total_played_ms) = some 0 :=
  ⟨rfl, rfl⟩

/-- C1 (amended): an `Unavailable` tick never opens a session and advances
`last_poll_time` to the tick time; with no active episode the state is
otherwise unchanged, but with an active episode the code (which cannot
distinguish `Unavailable` from nothing-playing) closes that episode's open
session and attributes the elapsed time to it. -/
theorem C1_unavailable_tick (st : TrackerState) (now : Nat) :
    (tick st now FetchResult.unavailable).lastPollTime = now ∧
    (st.lastEpisodeId = none →
      tick st now FetchResult.unavailable = { st with lastPollTime := now }) ∧
    (∀ lid, st.lastEpisodeId = some lid →
      tick st now FetchResult.unavailable =
        { st with lastPollTime := now, lastEpisodeId := none,
                  store := updateSessionEnd st.store lid (now - st.lastPollTime) now }) := by
  refine ⟨?_, ?_, ?_⟩
  · cases hle : st.lastEpisodeId with
    | none => simp [tick, getCurrentlyPlaying, endActive, hle]
    | some lid => simp [tick, getCurrentlyPlaying, endActive, hle]
  · intro h
    simp [tick, getCurrentlyPlaying, endActive, h]
  · intro lid h
    simp [tick, getCurrentlyPlaying, endActive, h]

theorem C1_unavailable_tick_witness :
    (tick { exSt with lastEpisodeId := none } 20000 FetchResult.unavailable =
      { exSt with lastEpisodeId := none, lastPollTime := 20000 }) ∧
    tick exSt 20000 FetchResult.unavailable =
      { exSt with lastPollTime := 20000, lastEpisodeId := none,
                  store := updateSessionEnd exSt.store "X" 10000 20000 } :=
  ⟨(C1_unavailable_tick { exSt with lastEpisodeId := none } 20000).2.1 rfl,
   (C1_unavailable_tick exSt 20000).2.2 "X" rfl⟩

/-- C2: at the failing input (active episode X with an open session; snapshot
reports a different episode Y playing; 10000 ms elapsed since the previous
tick) the switch tick adds the same 10000 ms interval to the totals of both
X and Y, so the interval is attributed to two episodes, not at most one. -/
theorem C2_double_attribution :
    (20000 - exSt.lastPollTime = 10000) ∧
    ((findEp (tick exSt 20000 (FetchResult.ok
        { item := some itemY, is_playing := true, progress_ms := 3000 })).store "X").map
      (fun e => e.total_played_ms) = some 10000) ∧
    ((findEp (tick exSt 20000 (FetchResult.ok
        { item := some itemY, is_playing := true, progress_ms := 3000 })).store "Y").map
      (fun e => e.total_played_ms) = some 10000) :=
  ⟨rfl, rfl, rfl⟩

/-- C3: every ledger mutation clamps `total_played_ms` to the episode's
duration: the upsert (session open/extend) and the session close each
preserve the bound, and for every sequence of ticks whose snapshots report
the provider's duration for their episode id, every episode recorded from a
fresh start satisfies `total_played_ms ≤ duration_ms`. -/
theorem C3_total_le_duration (durOf : String → Nat) :
    (∀ (s : Store) (item : PlaybackItem) (p t n : Nat),
      TotalBounded s → DurAssigned durOf s → ItemConsistent durOf item →
      TotalBounded (storeEpisode s item p t n)) ∧
    (∀ (s : Store) (i : String) (t n : Nat),
      TotalBounded s → TotalBounded (updateSessionEnd s i t n)) ∧
    (∀ (t0 : Nat) (ticks : List (Nat × FetchResult)),
      (∀ x ∈ ticks, FetchConsistent durOf x.2) →
      TotalBounded (runTicks (initialState t0) ticks).store) := by
  refine ⟨?_, ?_, ?_⟩
  · intro s item p t n hb hd hi
    exact storeEpisode_totalBounded p t n hb hd hi
  · intro s i t n hb
    exact updateSessionEnd_totalBounded i t n hb
  · intro t0 ticks hc
    refine runTicks_bounded ticks (initialState t0) ?_ ?_ hc
    · rw [initialState_store]
      intro e hm
      cases hm
    · rw [initialState_store]
      intro e hm
      cases hm

theorem C3_total_le_duration_witness :
    TotalBounded (storeEpisode [epX] itemX 5000 10000 20000) ∧
    TotalBounded (updateSessionEnd [epX] "X" 10000 20000) ∧
    TotalBounded (runTicks (initialState 10000) exTicks).store :=
  ⟨(C3_total_le_duration (fun _ => 600000)).1 [epX] itemX 5000 10000 20000
      (by unfold TotalBounded; decide) (by unfold DurAssigned; decide) rfl,
   (C3_total_le_duration (fun _ => 600000)).2.1 [epX] "X" 10000 20000
      (by unfold TotalBounded; decide),
   (C3_total_le_duration (fun _ => 600000)).2.2 10000 exTicks
      (by
        intro x hx
        simp only [exTicks, List.mem_cons] at hx
        rcases hx with rfl | rfl | h3
        · rfl
        · trivial
        · cases h3)⟩

/-- C4 counterexample: with episode X's session open, `stopPlaybackTracking`
only clears the timer — tracking is stopped yet one session is still open,
contradicting "zero sessions are open when tracking is stopped". -/
theorem C4_counterexample :
    (stopPlaybackTracking exSt).polling = false ∧
    totalOpen (stopPlaybackTracking exSt).store = 1 :=
  ⟨rfl, rfl⟩

/-- C4 (amended): during a run every tick preserves the invariant that ledger
keys are unique and at most one session is open (necessarily the active
episode's last session); under that invariant the whole ledger holds at most
one open session, a fresh start satisfies it, and a tick whose fetch yields
null closes everything; but `stopPlaybackTracking` leaves the ledger
untouched, so a session open at stop time stays open. -/
theorem C4_open_sessions :
    (∀ (st : TrackerState) (now : Nat) (fr : FetchResult),
      OpenInv st → OpenInv (tick st now fr)) ∧
    (∀ st : TrackerState, OpenInv st → totalOpen st.store ≤ 1) ∧
    (∀ t0 : Nat, OpenInv (initialState t0)) ∧
    (∀ (st : TrackerState) (now : Nat) (fr : FetchResult),
      OpenInv st → getCurrentlyPlaying fr = none →
      totalOpen (tick st now fr).store = 0) ∧
    (∀ st : TrackerState, (stopPlaybackTracking st).store = st.store) := by
  refine ⟨?_, ?_, ?_, ?_, ?_⟩
  · intro st now fr h
    exact tick_openInv h
  · intro st h
    exact totalOpen_le_one st.store st.lastEpisodeId h.1 h.2
  · intro t0
    exact initialState_openInv t0
  · intro st now fr h hn
    have h1 := @endActive_closes { st with lastPollTime := now }
      (now - st.lastPollTime) now h.1 h.2
    cases fr with
    | unavailable =>
      simp only [tick, getCurrentlyPlaying]
      exact totalOpen_eq_zero h1.2.2
    | noContent =>
      simp only [tick, getCurrentlyPlaying]
      exact totalOpen_eq_zero h1.2.2
    | ok playback =>
      simp [getCurrentlyPlaying] at hn
  · intro st
    exact stopPlaybackTracking_store st

theorem C4_open_sessions_witness :
    OpenInv (tick exSt 20000 FetchResult.noContent) ∧
    totalOpen exSt.store ≤ 1 ∧
    totalOpen (tick exSt 20000 FetchResult.unavailable).store = 0 :=
  ⟨C4_open_sessions.1 exSt 20000 FetchResult.noContent
      (by unfold OpenInv IdsNodup; decide),
   C4_open_sessions.2.1 exSt (by unfold OpenInv IdsNodup; decide),
   C4_open_sessions.2.2.2.1 exSt 20000 FetchResult.unavailable
      (by unfold OpenInv IdsNodup; decide) rfl⟩

/-- C5: a tick that finds a different playing episode Y while X is active
(with an open session, and Y currently has none open) closes X's session and
appends a fresh open session for Y within that same tick: afterwards X's
record ends in a closed session, Y's in an open one started now, and Y is
the active episode. -/
theorem C5_switch (st : TrackerState) (now : Nat) (playback : PlaybackState)
    (item : PlaybackItem) (x : String) (ex : StoredEpisode) (cur : Session)
    (hpi : playback.item = some item) (hep : item.itemType = "episode")
    (hpl : playback.is_playing = true)
    (hle : st.lastEpisodeId = some x) (hxy : x ≠ item.id)
    (hfx : findEp st.store x = some ex)
    (hlx : ex.sessions.getLast? = some cur) (hcur : cur.ended_at = none)
    (hy : ∀ e, findEp st.store item.id = some e → lastOpen e = false) :
    (tick st now (FetchResult.ok playback)).lastEpisodeId = some item.id ∧
    (∃ ex2, findEp (tick st now (FetchResult.ok playback)).store x = some ex2 ∧
      lastOpen ex2 = false) ∧
    (∃ ey, findEp (tick st now (FetchResult.ok playback)).store item.id = some ey ∧
      lastOpen ey = true ∧
      ey.sessions.getLast? =
        some { started_at := now, ended_at := none,
               progress_ms := playback.progress_ms }) := by
  have hcs : closeIfSwitch { st with lastPollTime := now } item.id
      (now - st.lastPollTime) now =
      updateSessionEnd st.store x (now - st.lastPollTime) now := by
    simp only [closeIfSwitch, hle, if_pos hxy]
  have hst : (tick st now (FetchResult.ok playback)).store =
      storeEpisode (updateSessionEnd st.store x (now - st.lastPollTime) now)
        item playback.progress_ms (now - st.lastPollTime) now := by
    rw [tick_playing hpi hep hpl, hcs]
  have hle2 : (tick st now (FetchResult.ok playback)).lastEpisodeId =
      some item.id := by
    rw [tick_playing hpi hep hpl]
  refine ⟨hle2, ?_, ?_⟩
  · rcases updateSessionEnd_closes_active (now - st.lastPollTime) now hfx hlx hcur with
      ⟨ex2, hfind, hopen, -⟩
    refine ⟨ex2, ?_, hopen⟩
    rw [hst, findEp_storeEpisode_ne _ _ _ (fun hh => hxy hh.symm)]
    exact hfind
  · have hy2 : ∀ e, findEp (updateSessionEnd st.store x (now - st.lastPollTime) now)
        item.id = some e → lastOpen e = false := by
      intro e he
      rw [findEp_updateSessionEnd_ne _ _ hxy] at he
      exact hy e he
    rcases storeEpisode_opens_fresh playback.progress_ms (now - st.lastPollTime) now hy2 with
      ⟨ey, hfind, hopen, hlast⟩
    exact ⟨ey, by rw [hst]; exact hfind, hopen, hlast⟩

theorem C5_switch_witness :
    (tick exSt 20000 (FetchResult.ok
      { item := some itemY, is_playing := true, progress_ms := 3000 })).lastEpisodeId =
      some "Y" ∧
    (∃ ex2, findEp (tick exSt 20000 (FetchResult.ok
      { item := some itemY, is_playing := true, progress_ms := 3000 })).store "X" =
        some ex2 ∧ lastOpen ex2 = false) ∧
    (∃ ey, findEp (tick exSt 20000 (FetchResult.ok
      { item := some itemY, is_playing := true, progress_ms := 3000 })).store "Y" =
        some ey ∧ lastOpen ey = true ∧
      ey.sessions.getLast? =
        some { started_at := 20000, ended_at := none, progress_ms := 3000 }) :=
  C5_switch exSt 20000
    { item := some itemY, is_playing := true, progress_ms := 3000 }
    itemY "X" epX { started_at := 5000, ended_at := none, progress_ms := 0 }
    rfl rfl rfl rfl (by decide) rfl rfl rfl
    (by
      intro e he
      rw [show findEp exSt.store itemY.id = none from rfl] at he
      cases he)

/-- C6: a tick reporting the active episode as paused leaves the whole state
unchanged except `lastPollTime`: the ledger (hence `total_played_ms` and the
open session) is untouched. -/
theorem C6_paused_noop (st : TrackerState) (now : Nat) (playback : PlaybackState)
    (item : PlaybackItem) (hpi : playback.item = some item)
    (hep : item.itemType = "episode") (hpl : playback.is_playing = false)
    (hact : st.lastEpisodeId = some item.id) :
    tick st now (FetchResult.ok playback) = { st with lastPollTime := now } :=
  tick_paused hpi hep hpl

theorem C6_paused_noop_witness :
    tick exSt 20000 (FetchResult.ok
      { item := some itemX, is_playing := false, progress_ms := 7777 }) =
      { exSt with lastPollTime := 20000 } :=
  C6_paused_noop exSt 20000
    { item := some itemX, is_playing := false, progress_ms := 7777 }
    itemX rfl rfl rfl rfl

/-- C7: once an episode is recorded, `storeEpisode` never touches its
metadata — name, description, duration, release date, artwork, show (id,
name, publisher, images) and `first_played_at` are copied unchanged from the
existing record no matter what the later snapshot carries, so empty or
missing fields can never erase previously known metadata. -/
theorem C7_metadata_immutable (s : Store) (item : PlaybackItem)
    (ex : StoredEpisode) (p t n : Nat) (h : findEp s item.id = some ex) :
    ∃ ex2, findEp (storeEpisode s item p t n) item.id = some ex2 ∧
      ex2.showInfo.publisher = ex.showInfo.publisher ∧
      ex2.name = ex.name ∧ ex2.description = ex.description ∧
      ex2.duration_ms = ex.duration_ms ∧ ex2.release_date = ex.release_date ∧
      ex2.images = ex.images ∧ ex2.showInfo = ex.showInfo ∧
      ex2.first_played_at = ex.first_played_at := by
  rcases storeEpisode_metadata p t n h with ⟨ex2, hf, h1, h2, h3, h4, h5, h6, h7, h8⟩
  exact ⟨ex2, hf, by rw [h7], h1, h2, h3, h4, h5, h7, h8⟩

theorem C7_metadata_immutable_witness :
    ∃ ex2, findEp (storeEpisode [epX] itemXEmptyMeta 3000 10000 20000) "X" =
      some ex2 ∧
      ex2.showInfo.publisher = "Acme" ∧
      ex2.name = "EpX" ∧ ex2.description = "" ∧
      ex2.duration_ms = 600000 ∧ ex2.release_date = "" ∧
      ex2.images = ([] : List String) ∧ ex2.showInfo = exShow ∧
      ex2.first_played_at = 5000 :=
  C7_metadata_immutable [epX] itemXEmptyMeta epX 3000 10000 20000 rfl

/-- C8: `getRecentlyPlayedEpisodes(limit)` returns the stored records mapped
to the reporting shape, ordered by `last_played_at` descending (surfaced as
`played_at`), truncated to at most `limit` entries; with a large enough
limit it is exactly the stored records, reordered. -/
theorem C8_recent (s : Store) (limit : Nat) :
    (getRecentlyPlayedEpisodes s limit).length = min limit s.length ∧
    (getRecentlyPlayedEpisodes s limit).Pairwise
      (fun a b => b.played_at ≤ a.played_at) ∧
    (∀ v ∈ getRecentlyPlayedEpisodes s limit, ∃ e ∈ s, v = toView e) ∧
    (s.length ≤ limit →
      (getRecentlyPlayedEpisodes s limit).Perm (s.map toView)) := by
  refine ⟨?_, ?_, ?_, ?_⟩
  · simp [getRecentlyPlayedEpisodes, getStoredEpisodes]
  · have hs := getStoredEpisodes_sorted s
    have ht := List.Pairwise.sublist (List.take_sublist limit _) hs
    unfold getRecentlyPlayedEpisodes
    rw [List.pairwise_map]
    exact ht.imp (fun h => h)
  · intro v hv
    unfold getRecentlyPlayedEpisodes at hv
    rcases List.mem_map.mp hv with ⟨e, hm, rfl⟩
    have h2 : e ∈ getStoredEpisodes s := (List.take_sublist _ _).subset hm
    have h3 : e ∈ s := (getStoredEpisodes_perm s).subset h2
    exact ⟨e, h3, rfl⟩
  · intro hlen
    unfold getRecentlyPlayedEpisodes
    have hl : (getStoredEpisodes s).length = s.length :=
      (getStoredEpisodes_perm s).length_eq
    rw [List.take_of_length_le (by rw [hl]; exact hlen)]
    exact (getStoredEpisodes_perm s).map toView

theorem C8_recent_witness :
    (getRecentlyPlayedEpisodes [epX] 5).Perm ([epX].map toView) ∧
    (∃ e ∈ [epX], toView epX = toView e) :=
  ⟨(C8_recent [epX] 5).2.2.2 (by decide),
   (C8_recent [epX] 5).2.2.1 (toView epX)
     (by simp [getRecentlyPlayedEpisodes, getStoredEpisodes])⟩

/-- C9: closing the open session of an episode id is a no-op (the whole
ledger, `total_played_ms` included, is unchanged) whenever no open session
exists for that id — the id is absent, the store is empty, the record has no
sessions, or its latest session already carries `ended_at`. -/
theorem C9_close_noop (s : Store) (i : String) (t n : Nat)
    (h : ∀ e, findEp s i = some e → lastOpen e = false) :
    updateSessionEnd s i t n = s :=
  updateSessionEnd_noop t n h

theorem C9_close_noop_witness :
    (updateSessionEnd [epXClosed] "X" 10000 20000 = [epXClosed]) ∧
    (updateSessionEnd [] "X" 10000 20000 = []) ∧
    (updateSessionEnd [epXClosed] "Z" 10000 20000 = [epXClosed]) :=
  ⟨C9_close_noop [epXClosed] "X" 10000 20000
      (by
        intro e he
        rw [show findEp [epXClosed] "X" = some epXClosed from rfl] at he
        cases he
        rfl),
   C9_close_noop [] "X" 10000 20000 (by intro e he; cases he),
   C9_close_noop [epXClosed] "Z" 10000 20000
      (by
        intro e he
        rw [show findEp [epXClosed] "Z" = none from rfl] at he
        cases he)⟩

/-- C10: calling `startPlaybackTracking` while polling is already active
returns the state unchanged (neither `lastPollTime` nor `lastEpisodeId` is
reset and no second timer is installed), so repeated starts are idempotent. -/
theorem C10_start_idempotent :
    (∀ (st : TrackerState) (now : Nat), st.polling = true →
      startPlaybackTracking st now = st) ∧
    (∀ (st : TrackerState) (n1 n2 : Nat),
      startPlaybackTracking (startPlaybackTracking st n1) n2 =
        startPlaybackTracking st n1) := by
  constructor
  · intro st now h
    unfold startPlaybackTracking
    rw [if_pos h]
  · intro st n1 n2
    by_cases h : st.polling = true
    · have h1 : startPlaybackTracking st n1 = st := by
        unfold startPlaybackTracking
        rw [if_pos h]
      rw [h1]
      unfold startPlaybackTracking
      rw [if_pos h]
    · have h1 : startPlaybackTracking st n1 =
          { st with polling := true, lastPollTime := n1, lastEpisodeId := none } := by
        unfold startPlaybackTracking
        rw [if_neg h]
      rw [h1]
      unfold startPlaybackTracking
      rw [if_pos rfl]

theorem C10_start_idempotent_witness :
    startPlaybackTracking exSt 99999 = exSt :=
  C10_start_idempotent.1 exSt 99999 rfl

end PodTrack
